import Mathlib

/-!
Shallow embedding of the Gupshup chat service core: the client message
reconciliation pipeline, the DM/Group classification predicates, and the
server route handlers (send, create, remove-member, edit, page bootstrap),
together with the sidebar reconciler and the dashboard sort order.
Each definition is translated from the corresponding TypeScript source.
-/

namespace Gupshup

/-- The reserved sentinel name marking a chat as a direct message. -/
def sentinelName : String := "Direct message"

/-- Message status on the client (`ExtendedMessage.status` in Messages.tsx). -/
inductive MsgStatus where
  | pending
  | sent
  | failed
deriving DecidableEq, Repr

/-- A canonical message (lib/validations/message.ts). Timestamps are
JavaScript epoch-millisecond numbers, modelled as integers. -/
structure Message where
  id : String
  chatId : String
  senderId : String
  text : String
  timestamp : Int
deriving DecidableEq, Repr

/-- A client-side message record: a message plus its display status
(`ExtendedMessage` in Messages.tsx; the unused tempId field is omitted
because the reconciliation handler never reads it). -/
structure ClientMessage extends Message where
  status : MsgStatus
deriving DecidableEq, Repr

/-- The record `{ ...message, status: "sent" }` built in Messages.tsx. -/
def asSent (m : Message) : ClientMessage :=
  { toMessage := m, status := .sent }

/-- The findIndex predicate of `messageHandler` in Messages.tsx lines
589-596: a pending record by the same sender with identical text whose
timestamp is within 2000 ms of the canonical one, and a different id. -/
def matchesPending (m : Message) (r : ClientMessage) : Bool :=
  r.status == .pending && r.text == m.text && r.senderId == m.senderId &&
    (r.timestamp - m.timestamp).natAbs < 2000 && r.id != m.id

/-- The reconciliation conditions as the spec states them: a record with
status pending, identical text, the same sender, and a timestamp within
2000 ms of the canonical one (no condition on the id). -/
def specMatches (m : Message) (r : ClientMessage) : Bool :=
  r.status == .pending && r.text == m.text && r.senderId == m.senderId &&
    (r.timestamp - m.timestamp).natAbs < 2000

/-- The `messageHandler` state update of Messages.tsx lines 548-610:
drop misrouted messages; if the id already exists, no-op; otherwise
replace the first matching pending optimistic record in place, or
prepend the canonical record marked sent. -/
def messageHandler (chatId : String) (prev : List ClientMessage) (m : Message) :
    List ClientMessage :=
  if m.chatId != chatId then prev
  else if prev.any (fun r => r.id == m.id) then prev
  else
    match prev.findIdx? (matchesPending m) with
    | some i => prev.set i (asSent m)
    | none => asSent m :: prev

/-- Whitespace for JavaScript `String.prototype.trim` (restricted to the
ASCII whitespace the repository's inputs can contain). -/
def isWhitespaceChar (c : Char) : Bool :=
  c == ' ' || c == '\t' || c == '\n' || c == '\r'

/-- Model of `s.trim()`: strip whitespace from both ends, on the char list. -/
def trimChars (l : List Char) : List Char :=
  ((l.dropWhile isWhitespaceChar).reverse.dropWhile isWhitespaceChar).reverse

/-- Model of `s.trim()` on strings. -/
def trimString (s : String) : String := ⟨trimChars s.data⟩

/-- Model of `s.split("--")` on char lists: leftmost non-overlapping matches of
the two-dash separator. -/
def splitSeq : List Char → List (List Char)
  | [] => [[]]
  | '-' :: '-' :: rest => [] :: splitSeq rest
  | c :: rest =>
    match splitSeq rest with
    | [] => [[c]]
    | h :: t => (c :: h) :: t

/-- Model of `chatId.split("--")` of the send route and the chat page. -/
def splitDashDash (s : String) : List String :=
  (splitSeq s.data).map (fun cs => ⟨cs⟩)

/-- A chat entity (types/db.d.ts): id, display name, member ids, and an
optional creation timestamp set only by the explicit create route. -/
structure Chat where
  id : String
  name : String
  memberIds : List String
  createdAt : Option Int := none
deriving DecidableEq, Repr

/-- The spec classification predicate: a chat is a DirectMessage iff it
has exactly two members and carries the sentinel name.  This is the
`isIndividualChat` computation of remove-member/route.ts line 59 and
SidebarChatList.tsx lines 101/124/171, recomputed from the entity. -/
def isDirectMessage (c : Chat) : Bool :=
  c.memberIds.length == 2 && c.name == sentinelName

/-- Predicate `isGroupChat` of dashboard/chat/[chatId]/page.tsx line 92:
`participants.length > 2 || (participants.length >= 1 && chat.name !== "Direct message")`
(participants has one entry per member id). -/
def pageIsGroupChat (c : Chat) : Bool :=
  c.memberIds.length > 2 || (c.memberIds.length ≥ 1 && c.name != sentinelName)

/-- Predicate `isTwoPersonChat` of dashboard/chat/[chatId]/page.tsx line 93. -/
def pageIsTwoPersonChat (c : Chat) : Bool :=
  c.memberIds.length == 2 && c.name == sentinelName

/-! ## Store model

The Upstash Redis keys the routes touch, modelled as association lists:
`chat:{id}` entity JSON, `user:{id}:chats` membership set,
`user:{id}:friends` friend set, `chat:{id}:messages` sorted log
(score = timestamp). -/

/-- Lookup in an association list keyed by string. -/
def alistGet {α : Type} (l : List (String × α)) (k : String) : Option α :=
  (l.find? (fun p => p.1 == k)).map (fun p => p.2)

/-- Redis `set key value`: replace the binding if present, else append it. -/
def alistSet {α : Type} (l : List (String × α)) (k : String) (v : α) :
    List (String × α) :=
  match l with
  | [] => [(k, v)]
  | p :: rest => if p.1 == k then (k, v) :: rest else p :: alistSet rest k v

/-- Redis set `sadd`: add a member to a string set if absent. -/
def ssetAdd (s : List String) (v : String) : List String :=
  if s.contains v then s else s ++ [v]

/-- The slice of the store the embedded routes read and write. -/
structure Store where
  chats : List (String × Chat)
  userChats : List (String × List String)
  friends : List (String × List String)
  logs : List (String × List (Int × Message))
deriving DecidableEq, Repr

def Store.getChat (st : Store) (id : String) : Option Chat :=
  alistGet st.chats id

def Store.setChat (st : Store) (c : Chat) : Store :=
  { st with chats := alistSet st.chats c.id c }

/-- Redis `sadd user:{uid}:chats chatId`. -/
def Store.saddUserChat (st : Store) (uid chatId : String) : Store :=
  { st with userChats :=
      alistSet st.userChats uid (ssetAdd ((alistGet st.userChats uid).getD []) chatId) }

/-- Redis `srem user:{uid}:chats chatId`. -/
def Store.sremUserChat (st : Store) (uid chatId : String) : Store :=
  { st with userChats :=
      alistSet st.userChats uid (((alistGet st.userChats uid).getD []).filter
        (fun c => c != chatId)) }

/-- Redis `smembers user:{uid}:chats`. -/
def Store.getUserChats (st : Store) (uid : String) : List String :=
  (alistGet st.userChats uid).getD []

/-- Redis `smembers user:{uid}:friends`. -/
def Store.getFriends (st : Store) (uid : String) : List String :=
  (alistGet st.friends uid).getD []

/-- Redis `zrange chat:{id}:messages 0 -1`, as (score, message) pairs. -/
def Store.getLog (st : Store) (chatId : String) : List (Int × Message) :=
  (alistGet st.logs chatId).getD []

/-- Redis `zadd chat:{id}:messages {score, member}`. -/
def Store.zaddLog (st : Store) (chatId : String) (score : Int) (m : Message) : Store :=
  { st with logs := alistSet st.logs chatId (st.getLog chatId ++ [(score, m)]) }

/-- Redis `zrem chat:{id}:messages member`: remove the entries holding the member. -/
def Store.zremLog (st : Store) (chatId : String) (m : Message) : Store :=
  let newLog := (st.getLog chatId).filter (fun e => e.2 ≠ m)
  { st with logs := alistSet st.logs chatId newLog }

/-! ## Remove-member route (api/chat/remove-member/route.ts) -/

/-- Result of `POST` on remove-member: an error response body, or the
updated chat, paired with the resulting store. -/
def removeMemberRoute (requesterId chatId memberId : String) (st : Store) :
    Except String Chat × Store :=
  if chatId == "" || memberId == "" then
    (.error "chatId and memberId are required.", st)
  else
    match st.getChat chatId with
    | none => (.error "Chat not found.", st)
    | some chat =>
      if !(chat.memberIds.contains requesterId) then
        (.error "Only chat members can remove participants.", st)
      else if isDirectMessage chat then
        (.error "Cannot remove members from a direct message chat. Use remove friend instead.", st)
      else if chat.memberIds.length ≤ 1 then
        (.error "Cannot remove the last member from a group.", st)
      else if !(chat.memberIds.contains memberId) then
        (.error "User is not a member of this chat.", st)
      else if memberId == requesterId then
        (.error "You cannot remove yourself from the chat.", st)
      else
        let newMembers := chat.memberIds.filter (fun id => id != memberId)
        let updated : Chat := { chat with memberIds := newMembers }
        (.ok updated, (st.setChat updated).sremUserChat memberId chatId)

/-! ## Create-chat route (api/chat/create, second section of page.tsx file) -/

/-- Handler `POST` of the chat-creation route: `newId` and `createdAt` stand for
the `nanoid()` and `Date.now()` values of the run.  The friendship gate
reproduces the JS `if (otherId)` guard: `find` yields `undefined` when every
member equals the requester and the guard is also falsy when the found id is
the empty string, so in both cases the friendship check is skipped. -/
def createChatRoute (requesterId : String) (name : Option String)
    (memberIds : List String) (newId : String) (createdAt : Int) (st : Store) :
    Except String Chat × Store :=
  if memberIds.length < 1 then
    (.error "A chat must have at least one member.", st)
  else if !(memberIds.contains requesterId) then
    (.error "Requester must be a member of the chat.", st)
  else
    let trimmedName := trimString (name.getD "")
    if memberIds.length > 2 && trimmedName.length == 0 then
      (.error "Group name is required for chats with more than 2 members.", st)
    else
      let finalName :=
        if memberIds.length == 2 && trimmedName.length == 0 then sentinelName
        else trimmedName
      let friendGate :=
        if memberIds.length == 2 then
          match memberIds.find? (fun id => id != requesterId) with
          | some otherId =>
            if otherId == "" then true
            else (st.getFriends requesterId).contains otherId
          | none => true
        else true
      if !friendGate then
        (.error "Cannot create a direct message with a non-friend.", st)
      else
        let chat : Chat :=
          { id := newId, name := finalName, memberIds := memberIds,
            createdAt := some createdAt }
        (.ok chat, memberIds.foldl (fun s uid => s.saddUserChat uid chat.id)
          (st.setChat chat))

/-! ## Message-send route (api/message/send, unnamed part_001)

The route performs its store writes and broker publishes sequentially;
the embedding records them as a chronological action trace so that the
order of publishes relative to the durable `zadd` commit is visible. -/

/-- One store write or broker publish of the send route, in program order. -/
inductive Action where
  | setChatKey (chat : Chat)
  | saddUserChats (uid chatId : String)
  | publishChat (chatId event : String) (m : Message)
  | publishUser (uid event : String) (m : Message)
  | zaddMessages (chatId : String) (score : Int) (m : Message)
deriving DecidableEq, Repr

/-- Broker publishes (`pusherServer.trigger`). -/
def Action.isPublish : Action → Bool
  | .publishChat _ _ _ => true
  | .publishUser _ _ _ => true
  | _ => false

/-- The durable commit of the message to the log (`db.zadd`). -/
def Action.isCommit : Action → Bool
  | .zaddMessages _ _ _ => true
  | _ => false

/-- Applying one action to the store. -/
def applyAction (st : Store) : Action → Store
  | .setChatKey chat => st.setChat chat
  | .saddUserChats uid chatId => st.saddUserChat uid chatId
  | .publishChat _ _ _ => st
  | .publishUser _ _ _ => st
  | .zaddMessages chatId score m => st.zaddLog chatId score m

/-- Lines 89-117 of the send route: publish the full message on the
conversation channel, publish a notification to every other member's
channel, then `zadd` the message into the log. -/
def messageActions (senderId text newMsgId : String) (now : Int) (chat : Chat) :
    List Action :=
  let msg : Message :=
    { id := newMsgId, chatId := chat.id, senderId := senderId, text := text,
      timestamp := now }
  Action.publishChat chat.id "incoming-message" msg ::
    ((chat.memberIds.filter (fun id => id != senderId)).map
      (fun uid => Action.publishUser uid "new_message" msg) ++
      [Action.zaddMessages chat.id now msg])

/-- Handler `POST` of the send route: `newMsgId` and `now` stand for the
`nanoid()` and `Date.now()` of the run.  On success the result is the
chronological trace of store writes and publishes. -/
def sendMessageRoute (senderId text chatId newMsgId : String) (now : Int)
    (st : Store) : Except String (List Action) :=
  match st.getChat chatId with
  | none =>
    let parts := splitDashDash chatId
    let userId1 := parts.headD ""
    let userId2 := (parts.drop 1).headD ""
    if senderId != userId1 && senderId != userId2 then .error "Unauthorized"
    else
      let otherParticipantId := if senderId == userId1 then userId2 else userId1
      if !((st.getFriends senderId).contains otherParticipantId) then
        .error "Unauthorized"
      else
        let chat : Chat :=
          { id := chatId, name := sentinelName, memberIds := [userId1, userId2] }
        .ok ([Action.setChatKey chat, Action.saddUserChats userId1 chat.id,
          Action.saddUserChats userId2 chat.id] ++
          messageActions senderId text newMsgId now chat)
  | some chat =>
    if !(chat.memberIds.contains senderId) then .error "Unauthorized"
    else .ok (messageActions senderId text newMsgId now chat)

/-- Holds when `l` contains a publish action strictly before some commit action. -/
def publishBeforeCommit : List Action → Bool
  | [] => false
  | a :: rest => (a.isPublish && rest.any Action.isCommit) || publishBeforeCommit rest

/-! ## Message-edit route (api/message/edit/route.ts) -/

/-- Handler `POST` of the edit route: locate the message by id in the chat log,
allow only the original sender to edit, and rewrite the log entry with
the trimmed text under the original timestamp score. -/
def editMessageRoute (senderId messageId chatId text : String) (st : Store) :
    Except String Message × Store :=
  if messageId == "" || chatId == "" || text == "" then
    (.error "messageId, chatId, and text are required.", st)
  else
    let trimmedText := trimString text
    if trimmedText.length == 0 then
      (.error "Message text cannot be empty.", st)
    else
      match st.getChat chatId with
      | none => (.error "Chat not found.", st)
      | some chat =>
        if !(chat.memberIds.contains senderId) then (.error "Unauthorized", st)
        else
          let log := st.getLog chatId
          match log.find? (fun e => e.2.id == messageId) with
          | none => (.error "Message not found.", st)
          | some entry =>
            let originalMessage := entry.2
            if originalMessage.senderId != senderId then
              (.error "You can only edit your own messages.", st)
            else
              let updatedMessage : Message := { originalMessage with text := trimmedText }
              (.ok updatedMessage,
                (st.zremLog chatId originalMessage).zaddLog chatId
                  originalMessage.timestamp updatedMessage)

/-! ## Sidebar/list reconciler (SidebarChatList.tsx) -/

/-- One sidebar entry: the chat plus its display label. -/
structure SidebarItem where
  chat : Chat
  displayName : String
deriving DecidableEq, Repr

/-- The sidebar view filter prop (`viewType`). -/
inductive ViewType where
  | chats
  | groups
deriving DecidableEq, Repr

/-- The `chatUpdateHandler` (SidebarChatList.tsx lines 94-114): map over the
known entries; for the matching id install the payload chat, keeping the
old display name when the payload is classified an individual chat and
taking the payload name otherwise. -/
def chatUpdateHandler (dataChatId : String) (dataChat : Chat)
    (prev : List SidebarItem) : List SidebarItem :=
  prev.map (fun item =>
    if item.chat.id == dataChatId then
      let displayName :=
        if isDirectMessage dataChat then item.displayName else dataChat.name
      { chat := dataChat, displayName := displayName }
    else item)

/-- The `addedToChatHandler` (SidebarChatList.tsx lines 121-160): append the
payload chat, labelled with its own name, unless the id is already known
or the entry does not match the view filter. -/
def addedToChatHandler (viewType : Option ViewType) (dataChatId : String)
    (dataChat : Chat) (prev : List SidebarItem) : List SidebarItem :=
  if prev.any (fun item => item.chat.id == dataChatId) then prev
  else if viewType == some .chats && !(isDirectMessage dataChat) then prev
  else if viewType == some .groups && isDirectMessage dataChat then prev
  else prev ++ [{ chat := dataChat, displayName := dataChat.name }]

/-- The `chatCreatedHandler` (SidebarChatList.tsx lines 168-204): same upsert
as the added handler, keyed by the payload chat's own id. -/
def chatCreatedHandler (viewType : Option ViewType) (newChat : Chat)
    (prev : List SidebarItem) : List SidebarItem :=
  if prev.any (fun item => item.chat.id == newChat.id) then prev
  else if viewType == some .chats && !(isDirectMessage newChat) then prev
  else if viewType == some .groups && isDirectMessage newChat then prev
  else prev ++ [{ chat := newChat, displayName := newChat.name }]

/-! ## Dashboard chat lists and sort order (CreateGroupModal.tsx file,
dashboard layout section lines 380-498) -/

/-- One entry of `chatsWithDisplayNameAndMessages`: the chat, whether its
log is nonempty, the newest message timestamp, and the creation date. -/
structure LayoutItem where
  chat : Chat
  displayName : String
  hasMessages : Bool
  latestMessageTimestamp : Option Int
  createdAt : Option Int
deriving DecidableEq, Repr

/-- JS `a.latestMessageTimestamp || 0` (null coalesces to 0). -/
def latestOrZero (item : LayoutItem) : Int :=
  item.latestMessageTimestamp.getD 0

/-- JS `Math.max(a.latestMessageTimestamp || 0, a.createdAt || 0)`. -/
def groupSortKey (item : LayoutItem) : Int :=
  max (item.latestMessageTimestamp.getD 0) (item.createdAt.getD 0)

/-- Insert into a list kept in descending key order. -/
def insertDescBy (key : LayoutItem → Int) (x : LayoutItem) :
    List LayoutItem → List LayoutItem
  | [] => [x]
  | y :: ys => if key y ≤ key x then x :: y :: ys else y :: insertDescBy key x ys

/-- JS `.sort((a, b) => keyB - keyA)`: sort descending by the comparator key. -/
def sortDescBy (key : LayoutItem → Int) (l : List LayoutItem) : List LayoutItem :=
  l.foldr (insertDescBy key) []

/-- The `individualChats` list (lines 442-455): chats with messages, two members
and the sentinel name, sorted by newest message first. -/
def individualChats (items : List LayoutItem) : List LayoutItem :=
  sortDescBy latestOrZero (items.filter (fun item =>
    item.hasMessages && item.chat.memberIds.length == 2 &&
      item.chat.name == sentinelName))

/-- The `groupChats` list (lines 460-498): non-individual chats that pass the
group shape test, sorted by `max(createdAt, latest message)` descending. -/
def groupChats (items : List LayoutItem) : List LayoutItem :=
  sortDescBy groupSortKey (items.filter (fun item =>
    if isDirectMessage item.chat then false
    else item.chat.memberIds.length > 2 ||
      (item.chat.memberIds.length ≥ 1 && item.chat.name != sentinelName)))

/-! ## Chat page bootstrap (dashboard/chat/[chatId]/page.tsx lines 39-79) -/

/-- The chat-page server component, restricted to the chat-resolution
step: resolve the entity, or — when the id is unknown — bootstrap a
sentinel-named two-member chat from the `userA--userB` id with no
friendship check, persisting it and registering it for both users. -/
def chatPageLoad (userId chatId : String) (st : Store) :
    Except Unit (Chat × Store) :=
  match st.getChat chatId with
  | none =>
    let parts := splitDashDash chatId
    let userId1 := parts.headD ""
    let userId2 := (parts.drop 1).headD ""
    if userId != userId1 && userId != userId2 then .error ()
    else
      let chat : Chat :=
        { id := chatId, name := sentinelName, memberIds := [userId1, userId2] }
      .ok (chat, ((st.setChat chat).saddUserChat userId1 chat.id).saddUserChat
        userId2 chat.id)
  | some chat =>
    if !(chat.memberIds.contains userId) then .error ()
    else .ok (chat, st)

/-! ## Concrete fixtures used by the closed instances below -/

def emptyStore : Store := { chats := [], userChats := [], friends := [], logs := [] }

/-- An optimistic pending record, as produced by the client `send`. -/
def optimisticRec : ClientMessage :=
  { id := "T1", chatId := "c", senderId := "alice", text := "hi",
    timestamp := 1000, status := .pending }

/-- The canonical copy of the same message, arriving 500 ms later. -/
def canonicalMsg : Message :=
  { id := "M1", chatId := "c", senderId := "alice", text := "hi", timestamp := 1500 }

/-- A one-member chat explicitly created with the sentinel name. -/
def soloSentinelChat : Chat :=
  { id := "solo", name := "Direct message", memberIds := ["alice"], createdAt := some 7 }

def teamChat : Chat :=
  { id := "team", name := "Team", memberIds := ["alice", "bob"], createdAt := some 1 }

def msgOld : Message :=
  { id := "M1", chatId := "team", senderId := "alice", text := "hello", timestamp := 10 }

def teamStore : Store :=
  { chats := [("team", teamChat)],
    userChats := [("alice", ["team"]), ("bob", ["team"])],
    friends := [],
    logs := [("team", [(10, msgOld)])] }

/-- The message assembled by the send route in the concrete run below. -/
def sentMsg : Message :=
  { id := "M2", chatId := "team", senderId := "alice", text := "hi", timestamp := 99 }

def trioChat : Chat :=
  { id := "trio", name := "Trio", memberIds := ["alice", "bob", "carol"],
    createdAt := some 2 }

def trioStore : Store :=
  { chats := [("trio", trioChat)],
    userChats := [("alice", ["trio"]), ("bob", ["trio"]), ("carol", ["trio"])],
    friends := [],
    logs := [] }

/-- A store where alice and bob are friends and no chat exists yet. -/
def friendStore : Store :=
  { chats := [], userChats := [], friends := [("alice", ["bob"])], logs := [] }

/-- The chat created by the concrete create-route run below. -/
def createdDM : Chat :=
  { id := "c9", name := "Direct message", memberIds := ["alice", "bob"],
    createdAt := some 42 }

/-- The chat the create route builds when the other member id is the
empty string and the friendship check is skipped. -/
def falsyChat : Chat :=
  { id := "c0", name := "Direct message", memberIds := ["alice", ""],
    createdAt := some 7 }

def oldGroupChat : Chat :=
  { id := "g1", name := "Old", memberIds := ["a", "b", "c"], createdAt := none }

def newGroupChat : Chat :=
  { id := "g1", name := "New", memberIds := ["a", "b", "c"], createdAt := none }

def sidebarPrev : List SidebarItem := [{ chat := oldGroupChat, displayName := "Old" }]

def layoutA : LayoutItem :=
  { chat := { id := "ga", name := "A", memberIds := ["x"], createdAt := some 50 },
    displayName := "A", hasMessages := true, latestMessageTimestamp := some 100,
    createdAt := some 50 }

def layoutB : LayoutItem :=
  { chat := { id := "gb", name := "B", memberIds := ["x"], createdAt := some 80 },
    displayName := "B", hasMessages := false, latestMessageTimestamp := none,
    createdAt := some 80 }

/-! # Theorems -/

/-- C2 counterexample: the claim says every chat that is not a
DirectMessage (two members with the sentinel name) is classified Group
at every call site.  The one-member sentinel-named chat — creatable
through the create route by passing the sentinel string as the explicit
name — is not a DirectMessage, yet the chat page's `isGroupChat`
classifies it as not a group either. -/
theorem classification_solo_sentinel_cex :
    (createChatRoute "alice" (some "Direct message") ["alice"] "solo" 7 emptyStore).1 =
      .ok soloSentinelChat ∧
    isDirectMessage soloSentinelChat = false ∧
    pageIsGroupChat soloSentinelChat = false := by
  refine ⟨?_, rfl, rfl⟩
  rfl

/-- C2 (amended): a chat is classified DirectMessage iff it has exactly
two members and the sentinel name, recomputed from the entity both at the
remove-member route (`isDirectMessage`) and at the chat page
(`pageIsTwoPersonChat`); the chat page's Group predicate however is not
the exact complement: it holds exactly for non-DirectMessage chats with
at least one member that are not one-member sentinel-named chats. -/
theorem classification_callsites (c : Chat) :
    (isDirectMessage c = true ↔ (c.memberIds.length = 2 ∧ c.name = sentinelName)) ∧
    pageIsTwoPersonChat c = isDirectMessage c ∧
    (pageIsGroupChat c = true ↔
      (isDirectMessage c = false ∧ 1 ≤ c.memberIds.length ∧
        ¬(c.memberIds.length = 1 ∧ c.name = sentinelName))) := by
  refine ⟨?_, rfl, ?_⟩
  · simp [isDirectMessage]
  · by_cases hn : c.name = sentinelName <;>
      simp [isDirectMessage, pageIsGroupChat, hn] <;> omega

/-- C2 witness: the amended classification at the fixtures. -/
theorem classification_callsites_witness :
    isDirectMessage teamChat = false ∧ pageIsGroupChat teamChat = true := by
  have h := classification_callsites teamChat
  refine ⟨?_, ?_⟩
  · have h1 := h.1
    by_contra hb
    have : isDirectMessage teamChat = true := by
      revert hb
      cases isDirectMessage teamChat <;> simp
    have h2 := h1.mp this
    revert h2
    decide
  · exact h.2.2.mpr ⟨by decide, by decide, by decide⟩

/-- The code's findIndex predicate is the spec's conditions plus a
redundant id-difference conjunct. -/
theorem matchesPending_eq (m : Message) (r : ClientMessage) :
    matchesPending m r = (specMatches m r && (r.id != m.id)) := rfl

/-- When no local record carries the canonical id, the code's search and
the spec's search pick the same index. -/
theorem findIdx?_matches_eq (m : Message) (prev : List ClientMessage)
    (h : ∀ r ∈ prev, r.id ≠ m.id) :
    prev.findIdx? (matchesPending m) = prev.findIdx? (specMatches m) := by
  induction prev with
  | nil => rfl
  | cons r rest ih =>
    have hr : (r.id != m.id) = true := by
      simp only [bne_iff_ne, ne_eq]
      exact h r (List.mem_cons_self r rest)
    have hm : matchesPending m r = specMatches m r := by
      rw [matchesPending_eq, hr, Bool.and_true]
    have hrest := ih (fun x hx => h x (List.mem_cons_of_mem r hx))
    simp only [List.findIdx?_cons, List.findIdx?_start_succ, hm, hrest]

/-- C1: reconciliation of a canonical message on the conversation
channel.  Delivering the same event twice changes nothing the second
time; an id already present is a no-op; otherwise the first pending
record matching the spec conditions is replaced in place (same position,
same length, all other entries untouched) by the canonical record marked
sent; otherwise the canonical record is prepended. -/
theorem reconciliation_spec (chatId : String) (prev : List ClientMessage)
    (m : Message) (hch : m.chatId = chatId) :
    messageHandler chatId (messageHandler chatId prev m) m =
      messageHandler chatId prev m ∧
    ((∃ r ∈ prev, r.id = m.id) → messageHandler chatId prev m = prev) ∧
    ((∀ r ∈ prev, r.id ≠ m.id) →
      (∀ i, prev.findIdx? (specMatches m) = some i →
        (messageHandler chatId prev m).length = prev.length ∧
        (messageHandler chatId prev m)[i]? = some (asSent m) ∧
        ∀ j, j ≠ i → (messageHandler chatId prev m)[j]? = prev[j]?) ∧
      (prev.findIdx? (specMatches m) = none →
        messageHandler chatId prev m = asSent m :: prev)) := by
  subst hch
  by_cases hdup : prev.any (fun r => r.id == m.id) = true
  · have h1 : messageHandler m.chatId prev m = prev := by
      simp [messageHandler, hdup]
    refine ⟨by rw [h1, h1], fun _ => h1, fun hall => ?_⟩
    rw [List.any_eq_true] at hdup
    obtain ⟨r, hr, he⟩ := hdup
    exact absurd (by simpa using he) (hall r hr)
  · have hdup' : prev.any (fun r => r.id == m.id) = false := by
      simpa using hdup
    have hall : ∀ r ∈ prev, r.id ≠ m.id := by
      rw [List.any_eq_false] at hdup'
      intro r hr
      simpa using hdup' r hr
    have hfeq := findIdx?_matches_eq m prev hall
    cases hf : prev.findIdx? (matchesPending m) with
    | some i =>
      have hlt : i < prev.length :=
        (List.findIdx?_eq_some_iff_findIdx_eq.mp hf).1
      have h1 : messageHandler m.chatId prev m = prev.set i (asSent m) := by
        simp [messageHandler, hdup', hf]
      have hmem : asSent m ∈ prev.set i (asSent m) :=
        List.mem_set prev i (by simpa using hlt) (asSent m)
      have hany2 : (prev.set i (asSent m)).any (fun r => r.id == m.id) = true := by
        rw [List.any_eq_true]
        exact ⟨asSent m, hmem, by simp [asSent]⟩
      refine ⟨?_, ?_, fun hall2 => ⟨?_, ?_⟩⟩
      · rw [h1]
        simp [messageHandler, hany2]
      · intro ⟨r, hr, he⟩
        exact absurd he (hall r hr)
      · intro i2 hi2
        rw [hfeq] at hf
        rw [hf] at hi2
        injection hi2 with hi2
        subst hi2
        refine ⟨by rw [h1]; simp, by rw [h1]; simp [hlt], ?_⟩
        intro j hj
        rw [h1]
        exact List.getElem?_set_ne (fun hij => hj hij.symm)
      · intro hnone
        rw [hfeq, hnone] at hf
        exact absurd hf (by simp)
    | none =>
      have h1 : messageHandler m.chatId prev m = asSent m :: prev := by
        simp [messageHandler, hdup', hf]
      refine ⟨?_, ?_, fun hall2 => ⟨?_, fun _ => h1⟩⟩
      · rw [h1]
        have : (asSent m :: prev).any (fun r => r.id == m.id) = true := by
          simp [asSent]
        simp [messageHandler, this]
      · intro ⟨r, hr, he⟩
        exact absurd he (hall r hr)
      · intro i2 hi2
        rw [hfeq, hi2] at hf
        exact absurd hf (by simp)

/-- C1 witness: the optimistic record is replaced by the canonical one
at the same (only) position. -/
theorem reconciliation_witness :
    canonicalMsg.chatId = "c" ∧
    (messageHandler "c" [optimisticRec] canonicalMsg).length = 1 ∧
    (messageHandler "c" [optimisticRec] canonicalMsg)[0]? =
      some (asSent canonicalMsg) := by
  have h := reconciliation_spec "c" [optimisticRec] canonicalMsg rfl
  have h3 := (h.2.2 (by decide)).1 0 (by decide)
  exact ⟨rfl, h3.1, h3.2.1⟩

/-- A publish action is not the log commit. -/
theorem isCommit_false_of_isPublish (a : Action) (h : a.isPublish = true) :
    a.isCommit = false := by
  cases a <;> simp_all [Action.isPublish, Action.isCommit]

/-- Appending a commit after a list containing a publish yields a trace
with a publish strictly before a commit. -/
theorem publishBeforeCommit_of_append (front : List Action) (z : Action)
    (hz : z.isCommit = true) (hp : ∃ a ∈ front, a.isPublish = true) :
    publishBeforeCommit (front ++ [z]) = true := by
  induction front with
  | nil => simp at hp
  | cons a rest ih =>
    obtain ⟨b, hb, hbp⟩ := hp
    rcases List.mem_cons.mp hb with rfl | hbr
    · simp [publishBeforeCommit, hbp, hz]
    · simp [publishBeforeCommit, ih ⟨b, hbr, hbp⟩]

/-- The trailing part of every send: the conversation publish, the
notification publishes, then the log commit last. -/
theorem messageActions_shape (senderId text newMsgId : String) (now : Int)
    (chat : Chat) :
    ∃ pubs, messageActions senderId text newMsgId now chat =
      pubs ++ [Action.zaddMessages chat.id now
        { id := newMsgId, chatId := chat.id, senderId := senderId,
          text := text, timestamp := now }] ∧
      (∀ a ∈ pubs, a.isPublish = true) ∧ pubs ≠ [] := by
  refine ⟨Action.publishChat chat.id "incoming-message"
      { id := newMsgId, chatId := chat.id, senderId := senderId,
        text := text, timestamp := now } ::
      ((chat.memberIds.filter (fun id => id != senderId)).map
        (fun uid => Action.publishUser uid "new_message"
          { id := newMsgId, chatId := chat.id, senderId := senderId,
            text := text, timestamp := now })), ?_, ?_, by simp⟩
  · simp [messageActions]
  · intro a ha
    rcases List.mem_cons.mp ha with rfl | hmap
    · rfl
    · obtain ⟨uid, -, rfl⟩ := List.mem_map.mp hmap
      rfl

/-- C3 counterexample: a concrete successful send whose trace publishes
the message-sent event and the notification before the `zadd` commit,
contradicting the claim that no publish occurs before the commit. -/
theorem publish_before_commit_cex :
    sendMessageRoute "alice" "hi" "team" "M2" 99 teamStore =
      .ok [Action.publishChat "team" "incoming-message" sentMsg,
        Action.publishUser "bob" "new_message" sentMsg,
        Action.zaddMessages "team" 99 sentMsg] ∧
    publishBeforeCommit [Action.publishChat "team" "incoming-message" sentMsg,
      Action.publishUser "bob" "new_message" sentMsg,
      Action.zaddMessages "team" 99 sentMsg] = true :=
  ⟨rfl, rfl⟩

/-- Any trace made of non-commit setup actions followed by the message
actions has its commit last and some publish before it. -/
theorem trace_conclusion (creation : List Action)
    (hc : ∀ a ∈ creation, a.isCommit = false)
    (senderId text newMsgId : String) (now : Int) (chat : Chat) :
    ∃ front cid msg,
      creation ++ messageActions senderId text newMsgId now chat =
        front ++ [Action.zaddMessages cid now msg] ∧
      (∀ a ∈ front, a.isCommit = false) ∧
      (∃ a ∈ front, a.isPublish = true) ∧
      publishBeforeCommit
        (creation ++ messageActions senderId text newMsgId now chat) = true := by
  obtain ⟨pubs, hacts, hpub, hne⟩ :=
    messageActions_shape senderId text newMsgId now chat
  obtain ⟨p, hp⟩ := List.exists_mem_of_ne_nil pubs hne
  have hfront : ∀ a ∈ creation ++ pubs, a.isCommit = false := by
    intro a ha
    rcases List.mem_append.mp ha with hca | hpa
    · exact hc a hca
    · exact isCommit_false_of_isPublish a (hpub a hpa)
  have hex : ∃ a ∈ creation ++ pubs, a.isPublish = true :=
    ⟨p, List.mem_append_right creation hp, hpub p hp⟩
  refine ⟨creation ++ pubs, chat.id,
    { id := newMsgId, chatId := chat.id, senderId := senderId,
      text := text, timestamp := now }, ?_, hfront, hex, ?_⟩
  · rw [hacts, List.append_assoc]
  · rw [hacts, ← List.append_assoc]
    exact publishBeforeCommit_of_append (creation ++ pubs) _ rfl hex

/-- C3 (amended): for every send request that succeeds, the publishes
precede the durable commit — the trace ends with the `zadd` commit, every
earlier action is not a commit, and at least one publish occurs strictly
before the commit. -/
theorem send_publishes_precede_commit (senderId text chatId newMsgId : String)
    (now : Int) (st : Store) (acts : List Action)
    (h : sendMessageRoute senderId text chatId newMsgId now st = .ok acts) :
    ∃ front cid msg, acts = front ++ [Action.zaddMessages cid now msg] ∧
      (∀ a ∈ front, a.isCommit = false) ∧
      (∃ a ∈ front, a.isPublish = true) ∧
      publishBeforeCommit acts = true := by
  cases hch : st.getChat chatId with
  | some chat =>
    simp only [sendMessageRoute, hch] at h
    split at h
    · exact Except.noConfusion h
    · rw [Except.ok.injEq] at h
      subst h
      have := trace_conclusion [] (by simp) senderId text newMsgId now chat
      simpa using this
  | none =>
    simp only [sendMessageRoute, hch] at h
    split at h
    · exact Except.noConfusion h
    · split at h <;> split at h <;>
        first
        | exact Except.noConfusion h
        | · rw [Except.ok.injEq] at h
            subst h
            refine trace_conclusion _ ?_ senderId text newMsgId now _
            intro a ha
            rcases List.mem_cons.mp ha with rfl | ha2
            · rfl
            rcases List.mem_cons.mp ha2 with rfl | ha3
            · rfl
            rcases List.mem_cons.mp ha3 with rfl | ha4
            · rfl
            · simp at ha4

/-- C3 witness: the amended theorem applied to the concrete successful
send of the counterexample run. -/
theorem send_publishes_precede_commit_witness :
    publishBeforeCommit [Action.publishChat "team" "incoming-message" sentMsg,
      Action.publishUser "bob" "new_message" sentMsg,
      Action.zaddMessages "team" 99 sentMsg] = true := by
  obtain ⟨front, cid, msg, -, -, -, hp⟩ :=
    send_publishes_precede_commit "alice" "hi" "team" "M2" 99 teamStore
      [Action.publishChat "team" "incoming-message" sentMsg,
        Action.publishUser "bob" "new_message" sentMsg,
        Action.zaddMessages "team" 99 sentMsg] rfl
  exact hp

/-! ### Association-list lemmas for the store -/

theorem alistGet_alistSet_self {α : Type} (l : List (String × α)) (k : String)
    (v : α) : alistGet (alistSet l k v) k = some v := by
  induction l with
  | nil =>
    show alistGet [(k, v)] k = some v
    simp [alistGet]
  | cons p rest ih =>
    rw [alistSet]
    by_cases hp : (p.1 == k) = true
    · rw [if_pos hp]
      simp [alistGet]
    · rw [if_neg hp]
      have hp' : (p.1 == k) = false := by simpa using hp
      show (List.find? (fun q => q.1 == k) (p :: alistSet rest k v)).map
        (fun q => q.2) = some v
      simp only [List.find?_cons, hp']
      exact ih

theorem alistGet_alistSet_ne {α : Type} (l : List (String × α)) (k k' : String)
    (v : α) (h : k' ≠ k) : alistGet (alistSet l k v) k' = alistGet l k' := by
  have hk : ((k : String) == k') = false := by
    simp only [beq_eq_false_iff_ne, ne_eq]
    exact fun he => h he.symm
  induction l with
  | nil =>
    show (List.find? (fun q => q.1 == k') [(k, v)]).map (fun q => q.2) =
      alistGet [] k'
    simp only [List.find?_cons, hk]
    rfl
  | cons p rest ih =>
    rw [alistSet]
    by_cases hp : (p.1 == k) = true
    · rw [if_pos hp]
      have hpk : p.1 = k := by simpa using hp
      have hp' : (p.1 == k') = false := by
        simp only [beq_eq_false_iff_ne, ne_eq, hpk]
        exact fun he => h he.symm
      show (List.find? (fun q => q.1 == k') ((k, v) :: rest)).map (fun q => q.2) =
        (List.find? (fun q => q.1 == k') (p :: rest)).map (fun q => q.2)
      simp only [List.find?_cons, hk, hp']
    · rw [if_neg hp]
      show (List.find? (fun q => q.1 == k') (p :: alistSet rest k v)).map
          (fun q => q.2) =
        (List.find? (fun q => q.1 == k') (p :: rest)).map (fun q => q.2)
      cases hp2 : (p.1 == k') with
      | true => simp only [List.find?_cons, hp2]
      | false =>
        simp only [List.find?_cons, hp2]
        exact ih

theorem getChat_setChat_self (st : Store) (c : Chat) :
    (st.setChat c).getChat c.id = some c :=
  alistGet_alistSet_self st.chats c.id c

theorem getChat_sremUserChat (st : Store) (u cid id : String) :
    (st.sremUserChat u cid).getChat id = st.getChat id := rfl

theorem getChat_saddUserChat (st : Store) (u cid id : String) :
    (st.saddUserChat u cid).getChat id = st.getChat id := rfl

theorem ssetAdd_contains_self (s : List String) (v : String) :
    (ssetAdd s v).contains v = true := by
  by_cases h : (s.contains v) = true
  · rw [ssetAdd, if_pos h]
    exact h
  · rw [ssetAdd, if_neg (by simpa using h)]
    simp

theorem ssetAdd_contains_mono (s : List String) (v w : String)
    (h : s.contains w = true) : (ssetAdd s v).contains w = true := by
  by_cases hc : (s.contains v) = true
  · rw [ssetAdd, if_pos hc]
    exact h
  · rw [ssetAdd, if_neg (by simpa using hc)]
    simp only [List.contains_eq_any_beq, List.any_append] at h ⊢
    simp [h]

theorem getUserChats_saddUserChat_self (st : Store) (u cid : String) :
    (st.saddUserChat u cid).getUserChats u = ssetAdd (st.getUserChats u) cid := by
  simp [Store.saddUserChat, Store.getUserChats, alistGet_alistSet_self]

theorem getUserChats_saddUserChat_ne (st : Store) (u u2 cid : String)
    (h : u2 ≠ u) : (st.saddUserChat u cid).getUserChats u2 = st.getUserChats u2 := by
  simp [Store.saddUserChat, Store.getUserChats, alistGet_alistSet_ne _ _ _ _ h]

/-- C4: the remove-member route rejects — error response, store
untouched — exactly when the chat is a DirectMessage, the removal would
leave zero members, the target is the requester, the requester is not a
member, or the target is not a member; when none of these hold the
member is removed from the persisted entity. -/
theorem removeMember_guards (requesterId chatId memberId : String) (st : Store)
    (chat : Chat) (hcid : chatId ≠ "") (hmid : memberId ≠ "")
    (hchat : st.getChat chatId = some chat) :
    ((isDirectMessage chat = true ∨
        (chat.memberIds.filter (fun id => id != memberId)).length = 0 ∨
        memberId = requesterId ∨ requesterId ∉ chat.memberIds ∨
        memberId ∉ chat.memberIds) →
      (∃ e, (removeMemberRoute requesterId chatId memberId st).1 = .error e) ∧
        (removeMemberRoute requesterId chatId memberId st).2 = st) ∧
    (isDirectMessage chat = false → memberId ≠ requesterId →
      requesterId ∈ chat.memberIds → memberId ∈ chat.memberIds →
      (removeMemberRoute requesterId chatId memberId st).1 =
        .ok { chat with memberIds :=
          chat.memberIds.filter (fun id => id != memberId) } ∧
      (removeMemberRoute requesterId chatId memberId st).2.getChat chat.id =
        some { chat with memberIds :=
          chat.memberIds.filter (fun id => id != memberId) }) := by
  have hguard : (chatId == "" || memberId == "") = false := by
    simp [hcid, hmid]
  by_cases h1 : requesterId ∈ chat.memberIds
  · have h1b : (chat.memberIds.contains requesterId) = true := by simpa using h1
    by_cases h2 : isDirectMessage chat = true
    · have hroute : removeMemberRoute requesterId chatId memberId st =
          (.error "Cannot remove members from a direct message chat. Use remove friend instead.", st) := by
        simp [removeMemberRoute, hguard, hchat, h1, h1b, h2]
      exact ⟨fun _ => ⟨⟨_, by rw [hroute]⟩, by rw [hroute]⟩,
        fun h2x _ _ _ => absurd h2 (by simp [h2x])⟩
    · have h2b : isDirectMessage chat = false := by simpa using h2
      by_cases h3 : chat.memberIds.length ≤ 1
      · have hroute : removeMemberRoute requesterId chatId memberId st =
            (.error "Cannot remove the last member from a group.", st) := by
          simp [removeMemberRoute, hguard, hchat, h1, h1b, h2b, h3]
        refine ⟨fun _ => ⟨⟨_, by rw [hroute]⟩, by rw [hroute]⟩,
          fun _ h5x h1x h4x => ?_⟩
        have he : (chat.memberIds.erase memberId).length =
            chat.memberIds.length - 1 := List.length_erase_of_mem h4x
        have hm : requesterId ∈ chat.memberIds.erase memberId :=
          (List.mem_erase_of_ne (Ne.symm h5x)).mpr h1x
        have := List.length_pos_of_mem hm
        omega
      · by_cases h4 : memberId ∈ chat.memberIds
        · have h4b : (chat.memberIds.contains memberId) = true := by simpa using h4
          by_cases h5 : memberId = requesterId
          · have hroute : removeMemberRoute requesterId chatId memberId st =
                (.error "You cannot remove yourself from the chat.", st) := by
              simp [removeMemberRoute, hguard, hchat, h1, h1b, h2b, h3, h4, h4b, h5,
                hcid, h5 ▸ hmid]
            exact ⟨fun _ => ⟨⟨_, by rw [hroute]⟩, by rw [hroute]⟩,
              fun _ h5x _ _ => absurd h5 h5x⟩
          · have hroute1 : (removeMemberRoute requesterId chatId memberId st).1 = .ok { chat with memberIds := chat.memberIds.filter (fun id => id != memberId) } := by
              simp [removeMemberRoute, hguard, hchat, h1, h1b, h2b, h3, h4, h4b, h5]
            have hroute2 : (removeMemberRoute requesterId chatId memberId st).2 = (st.setChat { chat with memberIds := chat.memberIds.filter (fun id => id != memberId) }).sremUserChat memberId chatId := by
              simp [removeMemberRoute, hguard, hchat, h1, h1b, h2b, h3, h4, h4b, h5]
            refine ⟨fun hrej => ?_, fun _ _ _ _ => ⟨hroute1, ?_⟩⟩
            · exfalso
              rcases hrej with hd | hf | hs | hr | hm
              · exact absurd hd (by simp [h2b])
              · have hreq : requesterId ∈ chat.memberIds.filter
                    (fun id => id != memberId) := by
                  refine List.mem_filter.mpr ⟨h1, ?_⟩
                  simp only [bne_iff_ne, ne_eq]
                  exact fun hx => h5 hx.symm
                have := List.length_pos_of_mem hreq
                omega
              · exact h5 hs
              · exact hr h1
              · exact hm h4
            · rw [hroute2, getChat_sremUserChat]
              exact getChat_setChat_self st _
        · have h4b : (chat.memberIds.contains memberId) = false := by simpa using h4
          have hroute : removeMemberRoute requesterId chatId memberId st =
              (.error "User is not a member of this chat.", st) := by
            simp [removeMemberRoute, hguard, hchat, h1, h1b, h2b, h3, h4, h4b]
          exact ⟨fun _ => ⟨⟨_, by rw [hroute]⟩, by rw [hroute]⟩,
            fun _ _ _ h4x => absurd h4x h4⟩
  · have h1b : (chat.memberIds.contains requesterId) = false := by simpa using h1
    have hroute : removeMemberRoute requesterId chatId memberId st =
        (.error "Only chat members can remove participants.", st) := by
      simp [removeMemberRoute, hguard, hchat, h1, h1b]
    exact ⟨fun _ => ⟨⟨_, by rw [hroute]⟩, by rw [hroute]⟩,
      fun _ _ h1x _ => absurd h1x h1⟩

/-- C4 witness: removing carol from the three-member group succeeds and
the persisted entity no longer lists her. -/
theorem removeMember_guards_witness :
    trioStore.getChat "trio" = some trioChat ∧
    (removeMemberRoute "alice" "trio" "carol" trioStore).1 =
      .ok { trioChat with memberIds :=
        trioChat.memberIds.filter (fun id => id != "carol") } := by
  have h := (removeMember_guards "alice" "trio" "carol" trioStore trioChat
    (by decide) (by decide) rfl).2 (by decide) (by decide) (by decide) (by decide)
  exact ⟨rfl, h.1⟩

/-- C5 counterexample: with the other member id the empty string —
falsy in JavaScript — the route's `if (otherId)` guard skips the
friendship check entirely: alice has no friends in the empty store, yet
the two-member request is accepted (and even receives the sentinel
name), refuting the claim that a two-member request between non-friends
is always rejected. -/
theorem createChat_falsy_friend_gate_cex :
    (emptyStore.getFriends "alice").contains "" = false ∧
    (createChatRoute "alice" none ["alice", ""] "c0" 7 emptyStore).1 =
      .ok falsyChat :=
  ⟨rfl, rfl⟩

/-- C5 (amended): the create route requires the requester among the
members, requires a non-empty trimmed name above two members, assigns
the sentinel name (hence DirectMessage classification) to an unnamed
two-member chat, and rejects a two-member chat whose other member has a
non-empty id and is not the requester's friend; when the other member id
is the empty string the friendship gate is skipped and never rejects. -/
theorem createChat_spec (requesterId : String) (name : Option String)
    (memberIds : List String) (newId : String) (createdAt : Int) (st : Store) :
    (requesterId ∉ memberIds →
      ∃ e, (createChatRoute requesterId name memberIds newId createdAt st).1 =
        .error e) ∧
    (memberIds.length > 2 → (trimString (name.getD "")).length = 0 →
      ∃ e, (createChatRoute requesterId name memberIds newId createdAt st).1 =
        .error e) ∧
    (memberIds.length = 2 → name = none →
      ∀ chat, (createChatRoute requesterId name memberIds newId createdAt st).1 =
          .ok chat →
        chat.name = sentinelName ∧ isDirectMessage chat = true) ∧
    (memberIds.length = 2 →
      ∀ o ∈ memberIds, o ≠ requesterId → o ≠ "" →
        (st.getFriends requesterId).contains o = false →
        ∃ e, (createChatRoute requesterId name memberIds newId createdAt st).1 =
          .error e) ∧
    (memberIds.length = 2 →
      memberIds.find? (fun id => id != requesterId) = some "" →
      (createChatRoute requesterId name memberIds newId createdAt st).1 ≠
        .error "Cannot create a direct message with a non-friend.") := by
  refine ⟨?_, ?_, ?_, ?_, ?_⟩
  · intro hmem
    by_cases hlen : memberIds.length < 1
    · exact ⟨"A chat must have at least one member.",
        by simp [createChatRoute, hlen]⟩
    · refine ⟨"Requester must be a member of the chat.", ?_⟩
      simp [createChatRoute, hlen, hmem]
  · intro hgt htrim
    by_cases hmem : requesterId ∈ memberIds
    · have hlen : ¬(memberIds.length < 1) := by omega
      refine ⟨"Group name is required for chats with more than 2 members.", ?_⟩
      simp [createChatRoute, hlen, hmem, hgt, htrim]
    · have hlen : ¬(memberIds.length < 1) := by omega
      refine ⟨"Requester must be a member of the chat.", ?_⟩
      simp [createChatRoute, hlen, hmem]
  · intro hlen2 hname chat hok
    subst hname
    by_cases hmem : requesterId ∈ memberIds
    · have hcon : (memberIds.contains requesterId) = true := by simpa using hmem
      have htrim : trimString "" = "" := rfl
      simp only [createChatRoute, Option.getD_none, hlen2, htrim, hcon] at hok
      norm_num at hok
      split at hok
      · simp at hok
      · change Except.ok _ = Except.ok chat at hok
        rw [Except.ok.injEq] at hok
        constructor
        · rw [← hok]
        · rw [← hok]
          simp [isDirectMessage, hlen2]
    · simp [createChatRoute, (by omega : ¬memberIds.length < 1), hmem] at hok
      split at hok <;> simp at hok
  · intro hlen2 o ho hone hoe hof
    by_cases hmem : requesterId ∈ memberIds
    · obtain ⟨a, b, rfl⟩ := List.length_eq_two.mp hlen2
      refine ⟨"Cannot create a direct message with a non-friend.", ?_⟩
      by_cases hareq : a = requesterId
      · have hob : o = b := by
          rcases (by simpa using ho : o = a ∨ o = b) with h | h
          · exact absurd (h.trans hareq) hone
          · exact h
        have hafalse : (a != requesterId) = false := by simp [hareq]
        have hbne : (b != requesterId) = true := by
          simp only [bne_iff_ne, ne_eq]
          exact fun h => hone (hob ▸ h)
        have hfind : List.find? (fun id => id != requesterId) [a, b] = some b := by
          simp only [List.find?_cons, hafalse, hbne]
        have hbnotempty : (b == "") = false :=
          beq_eq_false_iff_ne.mpr (hob ▸ hoe)
        have hofb : b ∉ st.getFriends requesterId := by
          simpa using (hob ▸ hof : (st.getFriends requesterId).contains b = false)
        simp [createChatRoute, hmem, hfind, hbnotempty, hofb]
      · have hane : (a != requesterId) = true := by
          simp only [bne_iff_ne, ne_eq]
          exact hareq
        have hoa : o = a := by
          rcases (by simpa using ho : o = a ∨ o = b) with h | h
          · exact h
          · exfalso
            rcases (by simpa using hmem : requesterId = a ∨ requesterId = b)
              with h2 | h2
            · exact hareq h2.symm
            · exact hone (h.trans h2.symm)
        have hfind : List.find? (fun id => id != requesterId) [a, b] = some a := by
          simp only [List.find?_cons, hane]
        have hanotempty : (a == "") = false :=
          beq_eq_false_iff_ne.mpr (hoa ▸ hoe)
        have hofa : a ∉ st.getFriends requesterId := by
          simpa using (hoa ▸ hof : (st.getFriends requesterId).contains a = false)
        simp [createChatRoute, hmem, hfind, hanotempty, hofa]
    · refine ⟨"Requester must be a member of the chat.", ?_⟩
      have hne : memberIds ≠ [] := by
        intro h2
        rw [h2] at hlen2
        simp at hlen2
      simp [createChatRoute, hne, hmem]
  · intro hlen2 hfind
    by_cases hmem : requesterId ∈ memberIds
    · have hroute : (createChatRoute requesterId name memberIds newId createdAt
          st).1 = .ok { id := newId, name := if memberIds.length == 2 && (trimString (name.getD "")).length == 0 then sentinelName else trimString (name.getD ""), memberIds := memberIds, createdAt := some createdAt } := by
        simp [createChatRoute, hmem, hfind, (by omega : ¬memberIds.length < 1),
          (by omega : ¬memberIds.length > 2), hlen2]
      rw [hroute]
      simp
    · have hne : memberIds ≠ [] := by
        intro h2
        rw [h2] at hlen2
        simp at hlen2
      have hroute : (createChatRoute requesterId name memberIds newId createdAt
          st).1 = .error "Requester must be a member of the chat." := by
        simp [createChatRoute, hne, hmem]
      rw [hroute]
      simp only [ne_eq, Except.error.injEq]
      decide

/-- C5 witness: creating an unnamed two-member chat between friends
yields a sentinel-named chat classified DirectMessage. -/
theorem createChat_spec_witness :
    (createChatRoute "alice" none ["alice", "bob"] "c9" 42 friendStore).1 =
      .ok createdDM ∧
    isDirectMessage createdDM = true := by
  have hok : (createChatRoute "alice" none ["alice", "bob"] "c9" 42
      friendStore).1 = .ok createdDM := rfl
  have hc := (createChat_spec "alice" none ["alice", "bob"] "c9" 42
    friendStore).2.2.1 rfl rfl _ hok
  exact ⟨hok, hc.2⟩

/-- A chat-index membership survives any later `sadd`. -/
theorem getUserChats_contains_saddUserChat (st : Store) (u u2 cid cid2 : String)
    (h : (st.getUserChats u).contains cid = true) :
    ((st.saddUserChat u2 cid2).getUserChats u).contains cid = true := by
  by_cases he : u = u2
  · subst he
    rw [getUserChats_saddUserChat_self]
    exact ssetAdd_contains_mono _ _ _ h
  · rw [getUserChats_saddUserChat_ne st u2 u cid2 he]
    exact h

theorem getChat_zaddLog (st : Store) (c : String) (s : Int) (m : Message)
    (id : String) : (st.zaddLog c s m).getChat id = st.getChat id := rfl

theorem getLog_zaddLog_self (st : Store) (c : String) (s : Int) (m : Message) :
    (st.zaddLog c s m).getLog c = st.getLog c ++ [(s, m)] := by
  simp [Store.zaddLog, Store.getLog, alistGet_alistSet_self]

theorem getLog_zremLog_self (st : Store) (c : String) (m : Message) :
    (st.zremLog c m).getLog c = (st.getLog c).filter (fun e => e.2 ≠ m) := by
  simp [Store.zremLog, Store.getLog, alistGet_alistSet_self]

/-- C6: a send to an unknown chat id encoding two users is rejected
unless the sender is one of the two and the pair are friends; when
accepted, the sentinel-named two-member chat is persisted and registered
in both users' chat indexes by the trace prefix that precedes every
message-processing action. -/
theorem implicitDMBootstrap_spec (senderId text chatId newMsgId u1 u2 : String)
    (now : Int) (st : Store) (dmChat : Chat)
    (hnone : st.getChat chatId = none)
    (hsplit : splitDashDash chatId = [u1, u2])
    (hdm : dmChat = { id := chatId, name := sentinelName, memberIds := [u1, u2], createdAt := none }) :
    (senderId ≠ u1 → senderId ≠ u2 →
      sendMessageRoute senderId text chatId newMsgId now st =
        .error "Unauthorized") ∧
    ((senderId = u1 ∨ senderId = u2) →
      (st.getFriends senderId).contains (if senderId = u1 then u2 else u1) =
        false →
      sendMessageRoute senderId text chatId newMsgId now st =
        .error "Unauthorized") ∧
    ((senderId = u1 ∨ senderId = u2) →
      (st.getFriends senderId).contains (if senderId = u1 then u2 else u1) =
        true →
      sendMessageRoute senderId text chatId newMsgId now st =
        .ok ([Action.setChatKey dmChat, Action.saddUserChats u1 chatId,
          Action.saddUserChats u2 chatId] ++
          messageActions senderId text newMsgId now dmChat) ∧
      isDirectMessage dmChat = true ∧
      ([Action.setChatKey dmChat, Action.saddUserChats u1 chatId,
        Action.saddUserChats u2 chatId].foldl applyAction st).getChat chatId =
        some dmChat ∧
      (([Action.setChatKey dmChat, Action.saddUserChats u1 chatId,
        Action.saddUserChats u2 chatId].foldl applyAction
          st).getUserChats u1).contains chatId = true ∧
      (([Action.setChatKey dmChat, Action.saddUserChats u1 chatId,
        Action.saddUserChats u2 chatId].foldl applyAction
          st).getUserChats u2).contains chatId = true) := by
  subst hdm
  have hfold : [Action.setChatKey { id := chatId, name := sentinelName, memberIds := [u1, u2], createdAt := none },
      Action.saddUserChats u1 chatId, Action.saddUserChats u2 chatId].foldl
        applyAction st =
      ((st.setChat { id := chatId, name := sentinelName, memberIds := [u1, u2], createdAt := none }).saddUserChat
        u1 chatId).saddUserChat u2 chatId := rfl
  refine ⟨?_, ?_, ?_⟩
  · intro h1 h2
    simp [sendMessageRoute, hnone, hsplit, h1, h2]
  · intro hu hf
    have hb : (senderId != u1 && senderId != u2) = false := by
      rcases hu with rfl | rfl <;> simp
    have hfb : ((st.getFriends senderId).contains
        (if senderId == u1 then u2 else u1)) = false := by
      by_cases h : senderId = u1 <;> simpa [h] using hf
    simp only [sendMessageRoute, hnone, hsplit, List.headD_cons,
      List.drop_succ_cons, List.drop_zero, hb, Bool.false_eq_true, if_false]
    rw [if_pos (by simpa using hf)]
  · intro hu hf
    have hb : (senderId != u1 && senderId != u2) = false := by
      rcases hu with rfl | rfl <;> simp
    have hfb : ((st.getFriends senderId).contains
        (if senderId == u1 then u2 else u1)) = true := by
      by_cases h : senderId = u1 <;> simpa [h] using hf
    refine ⟨?_, by simp [isDirectMessage], ?_, ?_, ?_⟩
    · simp only [sendMessageRoute, hnone, hsplit, List.headD_cons,
        List.drop_succ_cons, List.drop_zero, hb, Bool.false_eq_true, if_false]
      rw [if_neg (by simpa using hf)]
    · rw [hfold, getChat_saddUserChat, getChat_saddUserChat]
      exact getChat_setChat_self st _
    · rw [hfold]
      refine getUserChats_contains_saddUserChat _ _ _ _ _ ?_
      rw [getUserChats_saddUserChat_self]
      exact ssetAdd_contains_self _ _
    · rw [hfold, getUserChats_saddUserChat_self]
      exact ssetAdd_contains_self _ _

/-- C6 witness: alice's first send on the implicit id creates and
registers the sentinel-named chat for both users. -/
theorem implicitDMBootstrap_witness :
    isDirectMessage { id := "alice--bob", name := sentinelName, memberIds := ["alice", "bob"], createdAt := none } = true ∧
    ([Action.setChatKey { id := "alice--bob", name := sentinelName, memberIds := ["alice", "bob"], createdAt := none },
      Action.saddUserChats "alice" "alice--bob",
      Action.saddUserChats "bob" "alice--bob"].foldl applyAction
        friendStore).getChat "alice--bob" =
      some { id := "alice--bob", name := sentinelName, memberIds := ["alice", "bob"], createdAt := none } := by
  have h := implicitDMBootstrap_spec "alice" "hi" "alice--bob" "M7" "alice" "bob"
    5 friendStore { id := "alice--bob", name := sentinelName, memberIds := ["alice", "bob"], createdAt := none }
    rfl rfl rfl
  have h3 := h.2.2 (Or.inl rfl) (by decide)
  exact ⟨h3.2.1, h3.2.2.1⟩

/-- C7: a successful edit preserves id, chatId, senderId and timestamp
(the log score) and changes only the text (to its trimmed form); an edit
by anyone other than the message's sender is rejected with the store
unchanged. -/
theorem editMessage_spec (senderId messageId chatId text : String) (st : Store)
    (chat : Chat) (entry : Int × Message)
    (hchat : st.getChat chatId = some chat)
    (hfind : (st.getLog chatId).find? (fun e => e.2.id == messageId) =
      some entry) :
    (∀ m, (editMessageRoute senderId messageId chatId text st).1 = .ok m →
      m.id = entry.2.id ∧ m.chatId = entry.2.chatId ∧
      m.senderId = entry.2.senderId ∧ m.timestamp = entry.2.timestamp ∧
      m = { entry.2 with text := trimString text } ∧
      (editMessageRoute senderId messageId chatId text st).2.getLog chatId =
        (st.getLog chatId).filter (fun e => e.2 ≠ entry.2) ++
          [(entry.2.timestamp, m)]) ∧
    (entry.2.senderId ≠ senderId →
      (∃ e, (editMessageRoute senderId messageId chatId text st).1 = .error e) ∧
      (editMessageRoute senderId messageId chatId text st).2 = st) := by
  by_cases hg : (messageId == "" || chatId == "" || text == "") = true
  · have hroute : editMessageRoute senderId messageId chatId text st =
        (.error "messageId, chatId, and text are required.", st) := by
      simp only [editMessageRoute, hg, if_true]
    exact ⟨fun m hok => absurd (hroute ▸ hok) (by simp),
      fun _ => ⟨⟨_, by rw [hroute]⟩, by rw [hroute]⟩⟩
  · have hg' : (messageId == "" || chatId == "" || text == "") = false := by
      simpa using hg
    by_cases ht : (trimString text).length = 0
    · have hroute : editMessageRoute senderId messageId chatId text st =
          (.error "Message text cannot be empty.", st) := by
        simp [editMessageRoute, hg', ht]
      exact ⟨fun m hok => absurd (hroute ▸ hok) (by simp),
        fun _ => ⟨⟨_, by rw [hroute]⟩, by rw [hroute]⟩⟩
    · by_cases hmem : senderId ∈ chat.memberIds
      · by_cases hs : (entry.2.senderId != senderId) = true
        · have hroute : editMessageRoute senderId messageId chatId text st =
              (.error "You can only edit your own messages.", st) := by
            simp [editMessageRoute, hg', ht, hchat, hmem, hfind, hs]
          exact ⟨fun m hok => absurd (hroute ▸ hok) (by simp),
            fun _ => ⟨⟨_, by rw [hroute]⟩, by rw [hroute]⟩⟩
        · have hs' : entry.2.senderId = senderId := by simpa using hs
          have hroute1 : (editMessageRoute senderId messageId chatId text st).1 =
              .ok { entry.2 with text := trimString text } := by
            simp [editMessageRoute, hg', ht, hchat, hmem, hfind, hs]
          have hroute2 : (editMessageRoute senderId messageId chatId text st).2 =
              (st.zremLog chatId entry.2).zaddLog chatId entry.2.timestamp
                { entry.2 with text := trimString text } := by
            simp [editMessageRoute, hg', ht, hchat, hmem, hfind, hs]
          refine ⟨fun m hok => ?_, fun hne => absurd hs' hne⟩
          rw [hroute1, Except.ok.injEq] at hok
          subst hok
          refine ⟨rfl, rfl, rfl, rfl, rfl, ?_⟩
          rw [hroute2, getLog_zaddLog_self, getLog_zremLog_self]
      · have hmem' : (chat.memberIds.contains senderId) = false := by
          simpa using hmem
        have hroute : editMessageRoute senderId messageId chatId text st =
            (.error "Unauthorized", st) := by
          simp [editMessageRoute, hg', ht, hchat, hmem, hmem']
        exact ⟨fun m hok => absurd (hroute ▸ hok) (by simp),
          fun _ => ⟨⟨_, by rw [hroute]⟩, by rw [hroute]⟩⟩

/-- C7 witness: alice edits her own stored message; id, chat, sender and
timestamp are preserved and only the text changes. -/
theorem editMessage_witness :
    (editMessageRoute "alice" "M1" "team" "hello world" teamStore).1 =
      .ok { msgOld with text := "hello world" } ∧
    ({ msgOld with text := "hello world" } : Message).timestamp =
      msgOld.timestamp := by
  have hok : (editMessageRoute "alice" "M1" "team" "hello world" teamStore).1 =
      .ok { msgOld with text := "hello world" } := rfl
  have h := (editMessage_spec "alice" "M1" "team" "hello world" teamStore
    teamChat (10, msgOld) rfl rfl).1 _ hok
  exact ⟨hok, h.2.2.2.1⟩

theorem insertDescBy_perm (key : LayoutItem → Int) (x : LayoutItem)
    (l : List LayoutItem) : (insertDescBy key x l).Perm (x :: l) := by
  induction l with
  | nil => exact List.Perm.refl _
  | cons y ys ih =>
    rw [insertDescBy]
    by_cases h : key y ≤ key x
    · rw [if_pos h]
    · rw [if_neg h]
      exact (ih.cons y).trans (List.Perm.swap x y ys)

theorem sortDescBy_perm (key : LayoutItem → Int) (l : List LayoutItem) :
    (sortDescBy key l).Perm l := by
  induction l with
  | nil => exact List.Perm.refl _
  | cons x xs ih =>
    have : sortDescBy key (x :: xs) = insertDescBy key x (sortDescBy key xs) :=
      rfl
    rw [this]
    exact (insertDescBy_perm key x (sortDescBy key xs)).trans (ih.cons x)

theorem insertDescBy_pairwise (key : LayoutItem → Int) (x : LayoutItem)
    (l : List LayoutItem)
    (h : l.Pairwise (fun a b => key b ≤ key a)) :
    (insertDescBy key x l).Pairwise (fun a b => key b ≤ key a) := by
  induction l with
  | nil => simp [insertDescBy]
  | cons y ys ih =>
    rw [insertDescBy]
    by_cases hxy : key y ≤ key x
    · rw [if_pos hxy]
      refine List.Pairwise.cons ?_ h
      intro z hz
      rcases List.mem_cons.mp hz with rfl | hzys
      · exact hxy
      · exact le_trans ((List.pairwise_cons.mp h).1 z hzys) hxy
    · rw [if_neg hxy]
      have hyx : key x ≤ key y := le_of_lt (lt_of_not_le hxy)
      refine List.Pairwise.cons ?_ (ih (List.pairwise_cons.mp h).2)
      intro z hz
      have hz2 := (insertDescBy_perm key x ys).mem_iff.mp hz
      rcases List.mem_cons.mp hz2 with rfl | hzys
      · exact hyx
      · exact (List.pairwise_cons.mp h).1 z hzys

theorem sortDescBy_pairwise (key : LayoutItem → Int) (l : List LayoutItem) :
    (sortDescBy key l).Pairwise (fun a b => key b ≤ key a) := by
  induction l with
  | nil => simp [sortDescBy]
  | cons x xs ih => exact insertDescBy_pairwise key x (sortDescBy key xs) ih

/-- C8: the direct view is the message-bearing sentinel-named two-member
chats sorted descending by newest message; the group view is the
remaining group-shaped chats sorted descending by
`max(createdAt, newest message)`; in particular a group with a message
at 100 (created 50) sorts before a message-less group created at 80. -/
theorem chatLists_sorted (items : List LayoutItem) :
    (individualChats items).Pairwise
      (fun a b => latestOrZero b ≤ latestOrZero a) ∧
    (individualChats items).Perm (items.filter (fun item =>
      item.hasMessages && item.chat.memberIds.length == 2 &&
        item.chat.name == sentinelName)) ∧
    (groupChats items).Pairwise
      (fun a b => groupSortKey b ≤ groupSortKey a) ∧
    (groupChats items).Perm (items.filter (fun item =>
      if isDirectMessage item.chat then false
      else item.chat.memberIds.length > 2 ||
        (item.chat.memberIds.length ≥ 1 && item.chat.name != sentinelName))) ∧
    groupChats [layoutB, layoutA] = [layoutA, layoutB] := by
  refine ⟨sortDescBy_pairwise _ _, sortDescBy_perm _ _,
    sortDescBy_pairwise _ _, sortDescBy_perm _ _, ?_⟩
  rfl

/-- C8 witness: the theorem instantiated at the two-group example. -/
theorem chatLists_sorted_witness :
    groupChats [layoutB, layoutA] = [layoutA, layoutB] :=
  (chatLists_sorted []).2.2.2.2

/-- C9 counterexample: an added-to-chat event for an already-known Group
entry whose authoritative payload name is "New" leaves the stored name
and display name "Old" — the authoritative name is not applied. -/
theorem sidebar_known_group_name_cex :
    newGroupChat.name = "New" ∧
    isDirectMessage newGroupChat = false ∧
    addedToChatHandler none "g1" newGroupChat sidebarPrev = sidebarPrev ∧
    (addedToChatHandler none "g1" newGroupChat sidebarPrev).map
      (fun item => item.displayName) = ["Old"] ∧
    (addedToChatHandler none "g1" newGroupChat sidebarPrev).map
      (fun item => item.chat.name) = ["Old"] := by
  exact ⟨rfl, rfl, rfl, rfl, rfl⟩

/-- C9 (amended): all three handlers upsert keyed by chat id and never
duplicate a known id; the metadata-refresh handler never inserts an
unknown id, and updates the known entry using the payload chat,
preserving the old display name when the payload is classified
DirectMessage and taking the payload name when it is classified Group;
the added-to-chat and chat-created handlers leave an already-known entry
entirely unchanged (the authoritative name is not applied there) and
append an unknown chat labelled with its own name, subject to the view
filter. -/
theorem sidebar_upsert_spec (viewType : Option ViewType) (dataChatId : String)
    (dataChat : Chat) (prev : List SidebarItem) :
    (dataChat.id = dataChatId →
      (chatUpdateHandler dataChatId dataChat prev).map (fun i => i.chat.id) =
        prev.map (fun i => i.chat.id)) ∧
    ((∀ i ∈ prev, i.chat.id ≠ dataChatId) →
      chatUpdateHandler dataChatId dataChat prev = prev) ∧
    (∀ (n : Nat) (item : SidebarItem), prev[n]? = some item →
      item.chat.id = dataChatId →
      (chatUpdateHandler dataChatId dataChat prev)[n]? =
        some { chat := dataChat, displayName := if isDirectMessage dataChat then item.displayName else dataChat.name }) ∧
    ((∃ i ∈ prev, i.chat.id = dataChatId) →
      addedToChatHandler viewType dataChatId dataChat prev = prev) ∧
    ((∃ i ∈ prev, i.chat.id = dataChat.id) →
      chatCreatedHandler viewType dataChat prev = prev) ∧
    ((∀ i ∈ prev, i.chat.id ≠ dataChatId) →
      addedToChatHandler viewType dataChatId dataChat prev =
        (if viewType = none ∨
            (viewType = some ViewType.chats ∧ isDirectMessage dataChat = true) ∨
            (viewType = some ViewType.groups ∧ isDirectMessage dataChat = false)
          then prev ++ [{ chat := dataChat, displayName := dataChat.name }]
          else prev)) ∧
    ((∀ i ∈ prev, i.chat.id ≠ dataChat.id) →
      chatCreatedHandler viewType dataChat prev =
        (if viewType = none ∨
            (viewType = some ViewType.chats ∧ isDirectMessage dataChat = true) ∨
            (viewType = some ViewType.groups ∧ isDirectMessage dataChat = false)
          then prev ++ [{ chat := dataChat, displayName := dataChat.name }]
          else prev)) := by
  refine ⟨?_, ?_, ?_, ?_, ?_, ?_, ?_⟩
  · intro hid
    rw [chatUpdateHandler, List.map_map]
    refine List.map_congr_left ?_
    intro i _
    by_cases h : (i.chat.id == dataChatId) = true
    · simp only [Function.comp_apply]
      rw [if_pos h]
      show dataChat.id = i.chat.id
      rw [hid]
      exact (by simpa using h : i.chat.id = dataChatId).symm
    · simp only [Function.comp_apply]
      rw [if_neg h]
  · intro hall
    rw [chatUpdateHandler]
    conv_rhs => rw [← List.map_id prev]
    refine List.map_congr_left ?_
    intro i hi
    rw [if_neg (by simpa using hall i hi)]
    rfl
  · intro n item hn hid
    rw [chatUpdateHandler, List.getElem?_map, hn]
    have hb : (item.chat.id == dataChatId) = true := by simpa using hid
    simp only [Option.map_some', hb, if_true]
  · intro hex
    have hany : (prev.any (fun item => item.chat.id == dataChatId)) = true := by
      rw [List.any_eq_true]
      obtain ⟨i, hi, he⟩ := hex
      exact ⟨i, hi, by simpa using he⟩
    rw [addedToChatHandler, if_pos hany]
  · intro hex
    have hany : (prev.any (fun item => item.chat.id == dataChat.id)) = true := by
      rw [List.any_eq_true]
      obtain ⟨i, hi, he⟩ := hex
      exact ⟨i, hi, by simpa using he⟩
    rw [chatCreatedHandler, if_pos hany]
  · intro hall
    have hany : (prev.any (fun item => item.chat.id == dataChatId)) = false := by
      rw [List.any_eq_false]
      intro i hi
      simpa using hall i hi
    rw [addedToChatHandler, if_neg (by simp [hany])]
    rcases viewType with _ | vt
    · simp
    · cases vt <;> cases hdm : isDirectMessage dataChat <;> simp [hdm]
  · intro hall
    have hany : (prev.any (fun item => item.chat.id == dataChat.id)) = false := by
      rw [List.any_eq_false]
      intro i hi
      simpa using hall i hi
    rw [chatCreatedHandler, if_neg (by simp [hany])]
    rcases viewType with _ | vt
    · simp
    · cases vt <;> cases hdm : isDirectMessage dataChat <;> simp [hdm]

/-- C9 witness: the amended theorem at the concrete fixtures — the
added-to-chat event for the known id leaves the list unchanged, the
metadata-refresh event applies the authoritative Group name, and a
chat-created event for an unknown id appends the chat under its own
name. -/
theorem sidebar_upsert_witness :
    addedToChatHandler none "g1" newGroupChat sidebarPrev = sidebarPrev ∧
    (chatUpdateHandler "g1" newGroupChat sidebarPrev)[0]? =
      some { chat := newGroupChat, displayName := "New" } ∧
    chatCreatedHandler none newGroupChat [] =
      [{ chat := newGroupChat, displayName := "New" }] := by
  have h := sidebar_upsert_spec none "g1" newGroupChat sidebarPrev
  refine ⟨h.2.2.2.1 ⟨{ chat := oldGroupChat, displayName := "Old" },
    by simp [sidebarPrev], rfl⟩, ?_, ?_⟩
  · have h3 := h.2.2.1 0 { chat := oldGroupChat, displayName := "Old" } rfl rfl
    simpa using h3
  · have h7 := (sidebar_upsert_spec none "g1" newGroupChat []).2.2.2.2.2.2
      (by simp)
    simpa using h7

/-- C10: opening the chat page on an unknown `userA--userB` id, as
either encoded user, creates and persists the sentinel-named two-member
chat and registers it for both users — with no friendship hypothesis
anywhere: the handler performs no friendship check. -/
theorem pageBootstrap_no_friend_check (userId chatId u1 u2 : String)
    (st : Store) (dmChat : Chat)
    (hnone : st.getChat chatId = none)
    (hsplit : splitDashDash chatId = [u1, u2])
    (huser : userId = u1 ∨ userId = u2)
    (hdm : dmChat = { id := chatId, name := sentinelName, memberIds := [u1, u2], createdAt := none }) :
    chatPageLoad userId chatId st =
      .ok (dmChat,
        ((st.setChat dmChat).saddUserChat u1 chatId).saddUserChat u2 chatId) ∧
    (((st.setChat dmChat).saddUserChat u1 chatId).saddUserChat
      u2 chatId).getChat chatId = some dmChat ∧
    ((((st.setChat dmChat).saddUserChat u1 chatId).saddUserChat
      u2 chatId).getUserChats u1).contains chatId = true ∧
    ((((st.setChat dmChat).saddUserChat u1 chatId).saddUserChat
      u2 chatId).getUserChats u2).contains chatId = true := by
  subst hdm
  have hb : (userId != u1 && userId != u2) = false := by
    rcases huser with rfl | rfl <;> simp
  refine ⟨?_, ?_, ?_, ?_⟩
  · simp only [chatPageLoad, hnone, hsplit, List.headD_cons,
      List.drop_succ_cons, List.drop_zero, hb, Bool.false_eq_true, if_false]
  · rw [getChat_saddUserChat, getChat_saddUserChat]
    exact getChat_setChat_self st _
  · refine getUserChats_contains_saddUserChat _ _ _ _ _ ?_
    rw [getUserChats_saddUserChat_self]
    exact ssetAdd_contains_self _ _
  · rw [getUserChats_saddUserChat_self]
    exact ssetAdd_contains_self _ _

/-- C10 witness: alice opens the page for the unknown id "alice--bob" in
a store where alice and bob are not friends; the chat is still created
and registered for both. -/
theorem pageBootstrap_witness :
    (emptyStore.getFriends "alice").contains "bob" = false ∧
    chatPageLoad "alice" "alice--bob" emptyStore =
      .ok ({ id := "alice--bob", name := sentinelName, memberIds := ["alice", "bob"], createdAt := none },
        ((emptyStore.setChat { id := "alice--bob", name := sentinelName, memberIds := ["alice", "bob"], createdAt := none }).saddUserChat
          "alice" "alice--bob").saddUserChat "bob" "alice--bob") ∧
    ((((emptyStore.setChat { id := "alice--bob", name := sentinelName, memberIds := ["alice", "bob"], createdAt := none }).saddUserChat
      "alice" "alice--bob").saddUserChat "bob"
        "alice--bob").getUserChats "bob").contains "alice--bob" = true := by
  have h := pageBootstrap_no_friend_check "alice" "alice--bob" "alice" "bob"
    emptyStore { id := "alice--bob", name := sentinelName, memberIds := ["alice", "bob"], createdAt := none }
    rfl rfl (Or.inl rfl) rfl
  exact ⟨rfl, h.1, h.2.2.2⟩

end Gupshup
